import Mathlib

/-!
Shallow embedding of `src/app.rs` of the flamelens repository.

The `App` struct and its methods are translated directly from the Rust
source. External collaborator types that are not part of `src/`
(the compiled regex of the `regex` crate, the flame graph tree of
`flame.rs`, the manual search pattern of `flame.rs`, the sampler state of
`py_spy.rs`, the view of `view.rs`) are represented abstractly: the app
is parameterised by the flame-graph type `FG` and the flame-search
pattern type `SP`, a compiled log regex is its matching function, and the
outcome of compiling a pattern is passed to the embedded method as an
`Except` argument, mirroring the `match` the Rust code performs on the
collaborator's result.

Rust's `usize` arithmetic in this file is `saturating_add` / `saturating_sub`
and comparisons only, so `Nat` with truncated subtraction models it
exactly (no wrap-around is reachable in the modelled functions).
`Duration` values are only stored and moved, never inspected, so they are
modelled as `Nat`. The `elapsed` `HashMap<String, Duration>` is modelled
as a function `String → Option Nat` with pointwise insert.
-/

/-- A compiled log-search regex of the external `regex` crate, represented
by its matching behaviour (`Regex::is_match`). -/
structure LogRegex where
  isMatch : String → Bool

/-- `ParsedFlameGraph` of `app.rs`: a parsed flame graph together with the
duration of the parse. -/
structure ParsedFlameGraph (FG : Type) where
  flamegraph : FG
  elapsed : Nat

/-- Modelled from the spec: the external sampling collaborator's status
signal takes values `{Running, Error(message)}` (`SamplerStatus` of
`py_spy.rs`, which is not under `src/`). -/
inductive SamplerStatus where
  | running : SamplerStatus
  | error : String → SamplerStatus
deriving DecidableEq

/-- Modelled from the spec: the Flame View state owns the freeze flag and
the current search pattern (`FlameGraphState` of `state.rs`, not under
`src/`; only the fields the claims touch are modelled). -/
structure FlameGraphState (SP : Type) where
  freeze : Bool
  searchPattern : Option SP

/-- Modelled from the spec: the Flame View holds the current frame tree
and its state (`FlameGraphView` of `view.rs`, not under `src/`). -/
structure FlameGraphView (FG SP : Type) where
  flamegraph : FG
  state : FlameGraphState SP

/-- Modelled from the spec: `replace_tree(new_tree)`: if frozen, no-op,
otherwise installs `new_tree` as current (`FlameGraphView::replace_flamegraph`
of `view.rs`, not under `src/`; selection reconciliation is outside the
claims). -/
def FlameGraphView.replace_flamegraph {FG SP : Type} (v : FlameGraphView FG SP) (fg : FG) :
    FlameGraphView FG SP :=
  if v.state.freeze then v else { v with flamegraph := fg }

/-- Modelled from the spec: `set_search_pattern(pattern)` installs the
pattern (`FlameGraphView::set_search_pattern` of `view.rs`, not under
`src/`). -/
def FlameGraphView.set_search_pattern {FG SP : Type} (v : FlameGraphView FG SP) (p : SP) :
    FlameGraphView FG SP :=
  { v with state := { v.state with searchPattern := some p } }

/-- `FlameGraphInput` of `app.rs`. -/
inductive FlameGraphInput where
  | file : String → FlameGraphInput
  | pid : Nat → Option String → FlameGraphInput

/-- Pointwise insert, modelling `HashMap::insert` (overwrites the key). -/
def mapInsert (m : String → Option Nat) (k : String) (v : Nat) : String → Option Nat :=
  fun q => if q = k then some v else m q

/-- The `App` struct of `app.rs`, parameterised by the flame-graph type
`FG` and the flame search-pattern type `SP`. `next_flamegraph` is the
single-slot mailbox (the `Arc<Mutex<Option<ParsedFlameGraph>>>`); the
input buffers (`tui_input` collaborator state) are not modelled because
no claim touches them. -/
structure App (FG SP : Type) where
  running : Bool
  flamegraph_view : FlameGraphView FG SP
  flamegraph_input : FlameGraphInput
  elapsed : String → Option Nat
  transient_message : Option String
  debug : Bool
  next_flamegraph : Option (ParsedFlameGraph FG)
  sampler_state : Option SamplerStatus
  log_messages : List String
  show_log_panel : Bool
  has_log_channel : Bool
  log_scroll_offset : Nat
  log_auto_scroll : Bool
  log_search_pattern : Option LogRegex
  log_search_text : Option String
  log_max_capacity : Nat
  log_current_match_line : Option Nat
  log_visible_lines : Nat

namespace App

variable {FG SP : Type}

/-- `App::with_flamegraph`. -/
def with_flamegraph (filename : String) (flamegraph : FG) : App FG SP :=
  { running := true
    flamegraph_view :=
      { flamegraph := flamegraph, state := { freeze := false, searchPattern := none } }
    flamegraph_input := .file filename
    elapsed := fun _ => none
    transient_message := none
    debug := false
    next_flamegraph := none
    sampler_state := none
    log_messages := []
    show_log_panel := false
    has_log_channel := false
    log_scroll_offset := 0
    log_auto_scroll := true
    log_search_pattern := none
    log_search_text := none
    log_max_capacity := 1000
    log_current_match_line := none
    log_visible_lines := 8 }

/-- `App::with_pid` (python feature): the returned struct literal of
`app.rs`, with the empty flame graph passed in for `FG` and the process
command line as computed by the process-info collaborator. The mailbox
starts empty and the sampler state starts as `Running`
(`SamplerState::default()` of `py_spy.rs` is not under `src/`; modelled
from the spec's status set with `Running` as the non-error start). -/
def with_pid (pid : Nat) (emptyFlamegraph : FG) (process_info : Option String) : App FG SP :=
  { running := true
    flamegraph_view :=
      { flamegraph := emptyFlamegraph, state := { freeze := false, searchPattern := none } }
    flamegraph_input := .pid pid process_info
    elapsed := fun _ => none
    transient_message := none
    debug := false
    next_flamegraph := none
    sampler_state := some .running
    log_messages := []
    show_log_panel := false
    has_log_channel := false
    log_scroll_offset := 0
    log_auto_scroll := true
    log_search_pattern := none
    log_search_text := none
    log_max_capacity := 1000
    log_current_match_line := none
    log_visible_lines := 8 }

/-- The background publisher of `App::with_pid`:
`*next_flamegraph.lock().unwrap() = Some(parsed)` — overwrites the
mailbox unconditionally. -/
def publish (_mailbox : Option (ParsedFlameGraph FG)) (parsed : ParsedFlameGraph FG) :
    Option (ParsedFlameGraph FG) :=
  some parsed

/-- `App::tick`. The measured replacement duration (`tic.elapsed()` of a
wall clock) is passed in as `replacementTime`. A `panic!` is modelled as
`Except.error` carrying the panic message; `Except.ok` is a normal
return. -/
def tick (s : App FG SP) (replacementTime : Nat) : Except String (App FG SP) :=
  let s1 :=
    if s.flamegraph_view.state.freeze then s
    else
      match s.next_flamegraph with
      | some parsed =>
        { s with
          next_flamegraph := none
          elapsed :=
            mapInsert (mapInsert s.elapsed "flamegraph" parsed.elapsed)
              "replacement" replacementTime
          flamegraph_view := s.flamegraph_view.replace_flamegraph parsed.flamegraph }
      | none => s
  match s1.sampler_state with
  | some (.error msg) =>
    .error ("py-spy sampler exited with error: " ++ msg ++
      "\n\nYou likely need to rerun this program with sudo.")
  | _ => .ok s1

/-- `App::set_transient_message`. -/
def set_transient_message (s : App FG SP) (message : String) : App FG SP :=
  { s with transient_message := some message }

/-- `App::set_manual_search_pattern`; `compiled` is the outcome of
`SearchPattern::new(pattern, is_regex, true)` (the search-engine
collaborator of `flame.rs`). -/
def set_manual_search_pattern (s : App FG SP) (pattern : String) (_is_regex : Bool)
    (compiled : Except Unit SP) : App FG SP :=
  match compiled with
  | .ok p => { s with flamegraph_view := s.flamegraph_view.set_search_pattern p }
  | .error _ => s.set_transient_message ("Invalid regex: " ++ pattern)

/-- `App::push_log_message`. -/
def push_log_message (s : App FG SP) (msg : String) : App FG SP :=
  let msgs := s.log_messages ++ [msg]
  let off := if s.log_auto_scroll then s.log_scroll_offset else s.log_scroll_offset + 1
  if msgs.length > s.log_max_capacity then
    { s with
      log_messages := msgs.tail
      log_scroll_offset := if off > 0 then off - 1 else off }
  else
    { s with log_messages := msgs, log_scroll_offset := off }

/-- `App::log_scroll_up`. -/
def log_scroll_up (s : App FG SP) (lines : Nat) : App FG SP :=
  { s with
    log_scroll_offset :=
      min (s.log_scroll_offset + lines) (s.log_messages.length - s.log_visible_lines)
    log_auto_scroll := false }

/-- `App::log_scroll_down`. -/
def log_scroll_down (s : App FG SP) (lines : Nat) : App FG SP :=
  let off := s.log_scroll_offset - lines
  { s with log_scroll_offset := off, log_auto_scroll := if off = 0 then true else s.log_auto_scroll }

/-- `App::log_scroll_to_bottom`. -/
def log_scroll_to_bottom (s : App FG SP) : App FG SP :=
  { s with log_scroll_offset := 0, log_auto_scroll := true }

/-- `App::scroll_to_log_line`. -/
def scroll_to_log_line (s : App FG SP) (line : Nat) : App FG SP :=
  let len := s.log_messages.length
  let e := len - s.log_scroll_offset
  let st := e - s.log_visible_lines
  if st ≤ line ∧ line < e then s
  else
    let half := s.log_visible_lines / 2
    let off := min (len - (line + half + 1)) (len - s.log_visible_lines)
    { s with log_scroll_offset := off, log_auto_scroll := off = 0 }

/-- Whether log line `i` matches the compiled regex (`re.is_match(&self.log_messages[i])`). -/
def logMatchAt (msgs : List String) (re : LogRegex) (i : Nat) : Bool :=
  re.isMatch (msgs.getD i "")

/-- `App::set_log_search_pattern`; `compiled` is the outcome of
`regex::Regex::new(pattern)` (external regex engine). -/
def set_log_search_pattern (s : App FG SP) (pattern : String)
    (compiled : Except Unit LogRegex) : App FG SP :=
  match compiled with
  | .ok re =>
    let len := s.log_messages.length
    let initial_match := (List.range len).reverse.find? (logMatchAt s.log_messages re)
    let s1 :=
      { s with
        log_search_pattern := some re
        log_search_text := some pattern
        log_current_match_line := initial_match }
    match initial_match with
    | some i => s1.scroll_to_log_line i
    | none => s1
  | .error _ => s.set_transient_message ("Invalid regex: " ++ pattern)

/-- `App::clear_log_search`. -/
def clear_log_search (s : App FG SP) : App FG SP :=
  { s with
    log_search_pattern := none
    log_search_text := none
    log_current_match_line := none }

/-- `App::log_next_match`. -/
def log_next_match (s : App FG SP) : App FG SP :=
  match s.log_search_pattern with
  | none => s
  | some re =>
    let len := s.log_messages.length
    if len = 0 then s
    else
      let start := match s.log_current_match_line with
        | none => 0
        | some i => i + 1
      match (List.range' start (len - start)).find? (logMatchAt s.log_messages re) with
      | some i => ({ s with log_current_match_line := some i } : App FG SP).scroll_to_log_line i
      | none => s

/-- `App::log_prev_match`. -/
def log_prev_match (s : App FG SP) : App FG SP :=
  match s.log_search_pattern with
  | none => s
  | some re =>
    let len := s.log_messages.length
    if len = 0 then s
    else
      let start := (match s.log_current_match_line with
        | none => len
        | some i => i) - 1
      match (List.range (start + 1)).reverse.find? (logMatchAt s.log_messages re) with
      | some i => ({ s with log_current_match_line := some i } : App FG SP).scroll_to_log_line i
      | none => s

/-- The log viewport: the window of lines the UI shows, anchored from the
tail — indices `[len − offset − visible, len − offset)` with saturating
subtraction, exactly the `start`/`end` computed by `scroll_to_log_line`. -/
def logViewport (msgs : List String) (offset visible : Nat) : List String :=
  (msgs.take (msgs.length - offset)).drop (msgs.length - offset - visible)

end App

/-! ## Concrete states used by witnesses and counterexamples -/

/-- Case-sensitive substring containment, the matching behaviour of a
regex whose pattern is a plain literal (used to instantiate `LogRegex` on
concrete examples). -/
def strContainsSub (hay needle : String) : Bool :=
  (List.range (hay.toList.length + 1)).any
    (fun k => decide ((hay.toList.drop k).take needle.toList.length = needle.toList))

/-- A file-mode app with a pending parsed flame graph in the mailbox. -/
def sampleApp : App Nat Unit :=
  { App.with_flamegraph "profile.txt" 0 with
    next_flamegraph := some ⟨42, 5⟩ }

/-! ## C1: tick consumes the mailbox unless frozen -/

/-- C1: for every state whose sampler reports no unrecoverable error, if
the view is not frozen and the mailbox holds a parsed flame graph, `tick`
returns normally with the mailbox emptied, the parse and replacement
timings recorded under `"flamegraph"` and `"replacement"` (all other
timing entries untouched), and the flame graph installed in the view,
everything else (log state in particular) unchanged — consuming exactly
the one pending tree; and if the view is frozen, `tick` returns the state
completely unchanged, mailbox and displayed flame graph included. -/
theorem tick_consumes_mailbox_unless_frozen {FG SP : Type} (s : App FG SP)
    (rt : Nat) (hok : ∀ m, s.sampler_state ≠ some (SamplerStatus.error m)) :
    (∀ p, s.flamegraph_view.state.freeze = false → s.next_flamegraph = some p →
      ∃ s', s.tick rt = Except.ok s' ∧
        s'.next_flamegraph = none ∧
        s'.elapsed "flamegraph" = some p.elapsed ∧
        s'.elapsed "replacement" = some rt ∧
        (∀ k, k ≠ "flamegraph" → k ≠ "replacement" → s'.elapsed k = s.elapsed k) ∧
        s'.flamegraph_view.flamegraph = p.flamegraph ∧
        s'.log_messages = s.log_messages ∧
        s'.log_scroll_offset = s.log_scroll_offset) ∧
    (s.flamegraph_view.state.freeze = true → s.tick rt = Except.ok s) := by
  constructor
  · intro p hfr hmb
    refine ⟨{ s with
        next_flamegraph := none
        elapsed := mapInsert (mapInsert s.elapsed "flamegraph" p.elapsed) "replacement" rt
        flamegraph_view := s.flamegraph_view.replace_flamegraph p.flamegraph },
      ?_, rfl, ?_, ?_, ?_, ?_, rfl, rfl⟩
    · unfold App.tick
      cases hss : s.sampler_state with
      | none => simp [App.tick, hfr, hmb, hss]
      | some st =>
        cases st with
        | running => simp [App.tick, hfr, hmb, hss]
        | error m => exact absurd hss (hok m)
    · simp [mapInsert]
    · simp [mapInsert]
    · intro k h1 h2
      simp [mapInsert, h1, h2]
    · simp [FlameGraphView.replace_flamegraph, hfr]
  · intro hfr
    unfold App.tick
    cases hss : s.sampler_state with
    | none => simp [App.tick, hfr, hss]
    | some st =>
      cases st with
      | running => simp [App.tick, hfr, hss]
      | error m => exact absurd hss (hok m)

/-- Witness for C1 at a concrete state: the file-mode app with a pending
tree `⟨42, 5⟩` in the mailbox (not frozen, no sampler error). -/
theorem tick_consumes_mailbox_unless_frozen_witness :
    ∃ s', sampleApp.tick 7 = Except.ok s' ∧
      s'.next_flamegraph = none ∧
      s'.elapsed "flamegraph" = some 5 ∧
      s'.elapsed "replacement" = some 7 ∧
      (∀ k, k ≠ "flamegraph" → k ≠ "replacement" → s'.elapsed k = sampleApp.elapsed k) ∧
      s'.flamegraph_view.flamegraph = 42 ∧
      s'.log_messages = sampleApp.log_messages ∧
      s'.log_scroll_offset = sampleApp.log_scroll_offset := by
  have hok : ∀ m, sampleApp.sampler_state ≠ some (SamplerStatus.error m) := by
    intro m
    simp [sampleApp, App.with_flamegraph]
  exact (tick_consumes_mailbox_unless_frozen sampleApp 7 hok).1 ⟨42, 5⟩ rfl rfl

/-! ## C2: the mailbox is overwrite-on-publish -/

/-- C2: publishing overwrites any unconsumed value: `publish t1` followed
by `publish t2` leaves the mailbox exactly as `publish t2` alone, and the
mailbox then holds precisely the second (latest) tree, so the first is
dropped and a consuming tick can observe only the second. -/
theorem publish_overwrites {FG : Type} (mb : Option (ParsedFlameGraph FG))
    (t1 t2 : ParsedFlameGraph FG) :
    App.publish (App.publish mb t1) t2 = App.publish mb t2 ∧
    App.publish (App.publish mb t1) t2 = some t2 :=
  ⟨rfl, rfl⟩

/-! ## C3: a sampler error is a terminal failure of tick -/

/-- C3: in every state whose sampler status record reports an
unrecoverable `Error`, `tick` does not return normally: it terminates the
application with the fatal py-spy message (the modelled `panic!`). -/
theorem tick_fatal_on_sampler_error {FG SP : Type} (s : App FG SP) (rt : Nat)
    (m : String) (herr : s.sampler_state = some (SamplerStatus.error m)) :
    s.tick rt = Except.error ("py-spy sampler exited with error: " ++ m ++
      "\n\nYou likely need to rerun this program with sudo.") := by
  unfold App.tick
  cases hfr : s.flamegraph_view.state.freeze <;>
    cases hmb : s.next_flamegraph <;>
      simp [hfr, hmb, herr]

/-- Witness for C3: a live-mode app whose sampler has failed with
"permission denied". -/
theorem tick_fatal_on_sampler_error_witness :
    App.tick
      ({ App.with_pid 1234 (0 : Nat) none with
        sampler_state := some (SamplerStatus.error "permission denied") } : App Nat Unit)
      3 =
    Except.error ("py-spy sampler exited with error: " ++ "permission denied" ++
      "\n\nYou likely need to rerun this program with sudo.") :=
  tick_fatal_on_sampler_error _ 3 "permission denied" rfl

/-! ## C8: invalid search patterns only set a transient message -/

/-- C8: when pattern compilation fails (invalid regex), both the manual
flame-search setter and the log-search setter only set the transient
error message and otherwise no-op: the result is exactly
`set_transient_message`, and the installed flame search pattern, log
search pattern, log search text and current log match index are all
unchanged. -/
theorem invalid_pattern_is_noop {FG SP : Type} (s : App FG SP) (pat : String) (b : Bool) :
    (s.set_manual_search_pattern pat b (.error ()) =
      s.set_transient_message ("Invalid regex: " ++ pat)) ∧
    (s.set_log_search_pattern pat (.error ()) =
      s.set_transient_message ("Invalid regex: " ++ pat)) ∧
    ((s.set_manual_search_pattern pat b (.error ())).flamegraph_view.state.searchPattern =
      s.flamegraph_view.state.searchPattern) ∧
    ((s.set_manual_search_pattern pat b (.error ())).log_search_pattern =
      s.log_search_pattern) ∧
    ((s.set_manual_search_pattern pat b (.error ())).log_search_text = s.log_search_text) ∧
    ((s.set_manual_search_pattern pat b (.error ())).log_current_match_line =
      s.log_current_match_line) ∧
    ((s.set_log_search_pattern pat (.error ())).flamegraph_view.state.searchPattern =
      s.flamegraph_view.state.searchPattern) ∧
    ((s.set_log_search_pattern pat (.error ())).log_search_pattern = s.log_search_pattern) ∧
    ((s.set_log_search_pattern pat (.error ())).log_search_text = s.log_search_text) ∧
    ((s.set_log_search_pattern pat (.error ())).log_current_match_line =
      s.log_current_match_line) :=
  ⟨rfl, rfl, rfl, rfl, rfl, rfl, rfl, rfl, rfl, rfl⟩

/-! ## C4: push_log_message -/

/-- Appending a line at the tail while incrementing the scroll offset
keeps the tail-anchored viewport window unchanged. -/
theorem logViewport_append (L : List String) (m : String) (o v : Nat) :
    App.logViewport (L ++ [m]) (o + 1) v = App.logViewport L o v := by
  unfold App.logViewport
  rw [List.length_append]
  simp only [List.length_singleton, Nat.add_sub_add_right]
  rw [List.take_append_of_le_length (Nat.sub_le _ _)]

/-- C4 (amended): `push_log_message` appends the line at the tail; when
auto-scroll is off and no eviction occurs the scroll offset is
incremented, which leaves the previously visible window's content
unchanged; once the buffer length exceeds capacity the oldest line is
evicted and the scroll offset is decremented in lockstep with the push's
increment (net unchanged when auto-scroll is off, decremented by one when
auto-scroll is on). The eviction case does NOT keep the previously
visible window's content unchanged — see the counterexample. -/
theorem push_log_message_spec {FG SP : Type} (s : App FG SP) (msg : String) :
    (¬ s.log_messages.length + 1 > s.log_max_capacity →
      (s.push_log_message msg).log_messages = s.log_messages ++ [msg]) ∧
    (s.log_messages.length + 1 > s.log_max_capacity →
      (s.push_log_message msg).log_messages = (s.log_messages ++ [msg]).tail) ∧
    (s.log_auto_scroll = false → ¬ s.log_messages.length + 1 > s.log_max_capacity →
      (s.push_log_message msg).log_scroll_offset = s.log_scroll_offset + 1) ∧
    (s.log_auto_scroll = false → s.log_messages.length + 1 > s.log_max_capacity →
      (s.push_log_message msg).log_scroll_offset = s.log_scroll_offset) ∧
    (s.log_auto_scroll = true → ¬ s.log_messages.length + 1 > s.log_max_capacity →
      (s.push_log_message msg).log_scroll_offset = s.log_scroll_offset) ∧
    (s.log_auto_scroll = true → s.log_messages.length + 1 > s.log_max_capacity →
      (s.push_log_message msg).log_scroll_offset = s.log_scroll_offset - 1) ∧
    (s.log_auto_scroll = false → ¬ s.log_messages.length + 1 > s.log_max_capacity →
      App.logViewport (s.push_log_message msg).log_messages
          (s.push_log_message msg).log_scroll_offset s.log_visible_lines =
        App.logViewport s.log_messages s.log_scroll_offset s.log_visible_lines) := by
  refine ⟨?_, ?_, ?_, ?_, ?_, ?_, ?_⟩
  · intro h2
    simp [App.push_log_message, h2]
  · intro h2
    simp [App.push_log_message, h2]
  · intro h1 h2
    simp [App.push_log_message, h1, h2]
  · intro h1 h2
    simp [App.push_log_message, h1, h2]
  · intro h1 h2
    simp [App.push_log_message, h1, h2]
  · intro h1 h2
    simp only [App.push_log_message, List.length_append, List.length_singleton, h1, if_true,
      if_pos h2]
    split <;> omega
  · intro h1 h2
    simp only [App.push_log_message, List.length_append, List.length_singleton, h1,
      Bool.false_eq_true, if_false, if_neg h2]
    exact logViewport_append _ _ _ _

/-- A file-mode app at capacity 4 with 4 lines, a viewport of 2 lines
scrolled up by 1, auto-scroll off: the state the C4 counterexample
pushes into. -/
def evictApp : App Nat Unit :=
  { App.with_flamegraph "profile.txt" 0 with
    log_messages := ["a", "b", "c", "d"]
    log_max_capacity := 4
    log_visible_lines := 2
    log_scroll_offset := 1
    log_auto_scroll := false }

/-- C4 counterexample: pushing `"e"` into `evictApp` causes an eviction,
and the previously visible window `["b", "c"]` becomes `["c", "d"]` — the
content of the window the user was looking at shifts, contradicting the
claim that a push causing eviction leaves it unchanged. -/
theorem push_eviction_shifts_viewport :
    (App.push_log_message evictApp "e").log_messages = ["b", "c", "d", "e"] ∧
    App.logViewport evictApp.log_messages evictApp.log_scroll_offset
      evictApp.log_visible_lines = ["b", "c"] ∧
    App.logViewport (App.push_log_message evictApp "e").log_messages
      (App.push_log_message evictApp "e").log_scroll_offset
      (App.push_log_message evictApp "e").log_visible_lines = ["c", "d"] ∧
    ¬ App.logViewport (App.push_log_message evictApp "e").log_messages
        (App.push_log_message evictApp "e").log_scroll_offset
        (App.push_log_message evictApp "e").log_visible_lines =
      App.logViewport evictApp.log_messages evictApp.log_scroll_offset
        evictApp.log_visible_lines := by
  refine ⟨rfl, rfl, rfl, ?_⟩
  decide

/-! ## C5: centering on a log line -/

/-- C5: `scroll_to_log_line` is a no-op when the line already lies in the
viewport `[len − offset − visible, len − offset)`; otherwise it sets the
scroll offset to `len − (line + visible/2 + 1)` clamped from above by the
maximal valid offset `len − visible` (and from below by 0, by saturating
subtraction), sets auto-scroll to true exactly when the resulting offset
is 0, and — whenever neither clamp bites — places the line at the
viewport's vertical midpoint: the new viewport ends at
`line + visible/2 + 1`, i.e. the line sits `visible/2` rows above the
viewport bottom. -/
theorem scroll_to_log_line_spec {FG SP : Type} (s : App FG SP) (line : Nat) :
    ((s.log_messages.length - s.log_scroll_offset - s.log_visible_lines ≤ line ∧
        line < s.log_messages.length - s.log_scroll_offset) →
      s.scroll_to_log_line line = s) ∧
    (¬ (s.log_messages.length - s.log_scroll_offset - s.log_visible_lines ≤ line ∧
        line < s.log_messages.length - s.log_scroll_offset) →
      (s.scroll_to_log_line line).log_scroll_offset =
        min (s.log_messages.length - (line + s.log_visible_lines / 2 + 1))
          (s.log_messages.length - s.log_visible_lines) ∧
      ((s.scroll_to_log_line line).log_auto_scroll = true ↔
        (s.scroll_to_log_line line).log_scroll_offset = 0) ∧
      (line + s.log_visible_lines / 2 + 1 ≤ s.log_messages.length →
        s.log_messages.length - (line + s.log_visible_lines / 2 + 1) ≤
          s.log_messages.length - s.log_visible_lines →
        s.log_messages.length - (s.scroll_to_log_line line).log_scroll_offset =
          line + s.log_visible_lines / 2 + 1)) := by
  constructor
  · intro h
    simp only [App.scroll_to_log_line, if_pos h]
  · intro h
    refine ⟨?_, ?_, ?_⟩
    · simp only [App.scroll_to_log_line, if_neg h]
    · simp only [App.scroll_to_log_line, if_neg h]
      simp [decide_eq_true_iff]
    · intro ha hb
      simp only [App.scroll_to_log_line, if_neg h]
      rw [min_eq_left hb, Nat.sub_sub_self ha]

/-! ## C9: log scrolling -/

/-- C9 (amended): `log_scroll_up(n)` sets the offset to
`min(offset + n, total − visible)` — the claim's clamp — and switches
auto-scroll off; `log_scroll_down(n)` only subtracts with saturation at 0
and does NOT clamp from above (see the counterexample), though whenever
the starting offset is within the valid range `[0, total − visible]` the
result again equals the claim's clamp; a scroll-down that reaches offset
0 re-enables auto-scroll (and one that does not leaves auto-scroll as it
was). -/
theorem log_scroll_spec {FG SP : Type} (s : App FG SP) (n : Nat) :
    ((s.log_scroll_up n).log_scroll_offset =
      min (s.log_scroll_offset + n) (s.log_messages.length - s.log_visible_lines)) ∧
    ((s.log_scroll_up n).log_auto_scroll = false) ∧
    ((s.log_scroll_down n).log_scroll_offset = s.log_scroll_offset - n) ∧
    (s.log_scroll_offset ≤ s.log_messages.length - s.log_visible_lines →
      (s.log_scroll_down n).log_scroll_offset =
        min (s.log_scroll_offset - n) (s.log_messages.length - s.log_visible_lines)) ∧
    ((s.log_scroll_down n).log_scroll_offset = 0 → (s.log_scroll_down n).log_auto_scroll = true) ∧
    ((s.log_scroll_down n).log_scroll_offset ≠ 0 →
      (s.log_scroll_down n).log_auto_scroll = s.log_auto_scroll) := by
  refine ⟨rfl, rfl, rfl, ?_, ?_, ?_⟩
  · intro h
    rw [min_eq_left (le_trans (Nat.sub_le _ _) h)]
    rfl
  · intro h
    have h' : s.log_scroll_offset - n = 0 := h
    simp [App.log_scroll_down, h']
  · intro h
    have h' : ¬ s.log_scroll_offset - n = 0 := h
    simp [App.log_scroll_down, h']

/-- A file-mode app whose offset (2) exceeds the maximal valid offset
(`len − visible = 4 − 8`, saturated to 0): reachable by two pushes with
auto-scroll off while the buffer is shorter than the viewport. -/
def overScrolledApp : App Nat Unit :=
  { App.with_flamegraph "profile.txt" 0 with
    log_messages := ["a", "b", "c", "d"]
    log_visible_lines := 8
    log_scroll_offset := 2
    log_auto_scroll := false }

/-- C9 counterexample: on `overScrolledApp`, `log_scroll_down 1` yields
offset 1, while the claim's "adjust by n clamped to
`[0, total_lines − visible_lines]`" yields
`min(2 − 1, 4 − 8) = 0 ≠ 1`: scroll-down does not clamp to the upper
bound. -/
theorem log_scroll_down_not_clamped :
    (App.log_scroll_down overScrolledApp 1).log_scroll_offset = 1 ∧
    min (overScrolledApp.log_scroll_offset - 1)
      (overScrolledApp.log_messages.length - overScrolledApp.log_visible_lines) = 0 ∧
    ¬ (App.log_scroll_down overScrolledApp 1).log_scroll_offset =
      min (overScrolledApp.log_scroll_offset - 1)
        (overScrolledApp.log_messages.length - overScrolledApp.log_visible_lines) := by
  refine ⟨rfl, rfl, ?_⟩
  decide

/-! ## Characterizations of the linear scans -/

/-- Scanning `(0..n).rev()` finds the greatest index below `n` satisfying
`p`, if any. -/
theorem find?_reverse_range_eq_some_iff (p : Nat → Bool) (n i : Nat) :
    (List.range n).reverse.find? p = some i ↔
      i < n ∧ p i = true ∧ ∀ j, i < j → j < n → p j = false := by
  induction n with
  | zero => simp
  | succ n ih =>
    rw [List.range_succ, List.reverse_append]
    by_cases hp : p n = true
    · simp only [List.reverse_singleton, List.singleton_append,
        List.find?_cons_of_pos _ hp]
      constructor
      · intro h
        injection h with h
        subst h
        exact ⟨Nat.lt_succ_self _, hp, fun j h1 h2 => absurd h2 (by omega)⟩
      · rintro ⟨h1, h2, h3⟩
        by_cases hin : i = n
        · rw [hin]
        · have hlt : i < n := by omega
          have hfalse := h3 n hlt (Nat.lt_succ_self n)
          rw [hfalse] at hp
          cases hp
    · have hp' : ¬ p n := by simp [hp]
      simp only [List.reverse_singleton, List.singleton_append,
        List.find?_cons_of_neg _ hp']
      rw [ih]
      constructor
      · rintro ⟨h1, h2, h3⟩
        refine ⟨by omega, h2, fun j hj1 hj2 => ?_⟩
        by_cases hjn : j = n
        · subst hjn
          simpa using hp
        · exact h3 j hj1 (by omega)
      · rintro ⟨h1, h2, h3⟩
        have hin : i ≠ n := by
          intro he
          subst he
          exact hp h2
        exact ⟨by omega, h2, fun j hj1 hj2 => h3 j hj1 (by omega)⟩

/-- Scanning `(0..n).rev()` finds nothing iff no index below `n`
satisfies `p`. -/
theorem find?_reverse_range_eq_none_iff (p : Nat → Bool) (n : Nat) :
    (List.range n).reverse.find? p = none ↔ ∀ j, j < n → p j = false := by
  rw [List.find?_eq_none]
  constructor
  · intro h j hj
    have := h j (by simpa using List.mem_range.mpr hj)
    simpa using this
  · intro h a ha
    have : a < n := List.mem_range.mp (by simpa using ha)
    simp [h a this]

/-- Scanning `start..start+n` forward finds the least index in the range
satisfying `p`, if any. -/
theorem find?_range'_eq_some_iff (p : Nat → Bool) (n : Nat) :
    ∀ st i, ((List.range' st n).find? p = some i ↔
      st ≤ i ∧ i < st + n ∧ p i = true ∧ ∀ j, st ≤ j → j < i → p j = false) := by
  induction n with
  | zero =>
    intro st i
    constructor
    · intro h
      exact Option.noConfusion h
    · rintro ⟨h1, h2, -, -⟩
      omega
  | succ n ih =>
    intro st i
    rw [List.range'_succ]
    by_cases hp : p st = true
    · rw [List.find?_cons_of_pos _ hp]
      constructor
      · intro h
        injection h with h
        subst h
        exact ⟨le_refl _, by omega, hp, fun j h1 h2 => by omega⟩
      · rintro ⟨h1, h2, h3, h4⟩
        by_cases his : i = st
        · rw [his]
        · have hlt : st < i := by omega
          have hfalse := h4 st (le_refl _) hlt
          rw [hfalse] at hp
          cases hp
    · have hp' : ¬ p st := by simp [hp]
      rw [List.find?_cons_of_neg _ hp']
      rw [ih (st + 1) i]
      constructor
      · rintro ⟨h1, h2, h3, h4⟩
        refine ⟨by omega, by omega, h3, fun j hj1 hj2 => ?_⟩
        by_cases hjs : j = st
        · subst hjs
          simpa using hp
        · exact h4 j (by omega) hj2
      · rintro ⟨h1, h2, h3, h4⟩
        have hsi : st ≠ i := by
          intro he
          rw [← he] at h3
          exact hp h3
        exact ⟨by omega, by omega, h3, fun j hj1 hj2 => h4 j (by omega) hj2⟩

/-- Scanning `start..start+n` forward finds nothing iff no index in the
range satisfies `p`. -/
theorem find?_range'_eq_none_iff (p : Nat → Bool) (st n : Nat) :
    (List.range' st n).find? p = none ↔ ∀ j, st ≤ j → j < st + n → p j = false := by
  rw [List.find?_eq_none]
  constructor
  · intro h j h1 h2
    have hj : j ∈ List.range' st n := List.mem_range'_1.mpr ⟨h1, h2⟩
    simpa using h j hj
  · intro h a ha
    have := List.mem_range'_1.mp ha
    simp [h a this.1 this.2]

/-- `scroll_to_log_line` touches only the scroll offset and the
auto-scroll flag: the log lines, search pattern, search text and current
match are unchanged. -/
theorem scroll_to_log_line_preserves {FG SP : Type} (s : App FG SP) (line : Nat) :
    (s.scroll_to_log_line line).log_messages = s.log_messages ∧
    (s.scroll_to_log_line line).log_search_pattern = s.log_search_pattern ∧
    (s.scroll_to_log_line line).log_search_text = s.log_search_text ∧
    (s.scroll_to_log_line line).log_current_match_line = s.log_current_match_line := by
  refine ⟨?_, ?_, ?_, ?_⟩ <;>
    (by_cases h : s.log_messages.length - s.log_scroll_offset - s.log_visible_lines ≤ line ∧
        line < s.log_messages.length - s.log_scroll_offset
     · simp only [App.scroll_to_log_line, if_pos h]
     · simp only [App.scroll_to_log_line, if_neg h])

/-! ## C6: starting a log search selects the latest matching line -/

/-- The current match installed by a successful `set_log_search_pattern`
is the result of the backward scan `(0..len).rev().find(..)`. -/
theorem set_log_search_pattern_ok_current {FG SP : Type} (s : App FG SP) (pat : String)
    (re : LogRegex) :
    (s.set_log_search_pattern pat (.ok re)).log_current_match_line =
      (List.range s.log_messages.length).reverse.find? (App.logMatchAt s.log_messages re) := by
  unfold App.set_log_search_pattern
  cases hf : (List.range s.log_messages.length).reverse.find?
      (App.logMatchAt s.log_messages re) with
  | none => simp only [hf]
  | some i =>
    simp only [hf]
    exact ((scroll_to_log_line_preserves _ i).2.2.2).trans rfl

/-- The example log buffer of the spec: `["x", "y match", "z", "w match"]`. -/
def logExampleApp : App Nat Unit :=
  { App.with_flamegraph "profile.txt" 0 with
    log_messages := ["x", "y match", "z", "w match"] }

/-- A compiled regex for the literal pattern `"match"`: matches any line
containing `"match"` as a substring. -/
def matchRegex : LogRegex :=
  ⟨fun str => strContainsSub str "match"⟩

/-- C6: a successful log search sets the current match to the greatest
index of a matching line — the most recent match — and to no match
exactly when no stored line matches; on the buffer
`["x", "y match", "z", "w match"]`, searching `"match"` selects index 3. -/
theorem log_search_selects_latest_match {FG SP : Type} (s : App FG SP) (pat : String)
    (re : LogRegex) :
    (∀ i, (s.set_log_search_pattern pat (.ok re)).log_current_match_line = some i →
      i < s.log_messages.length ∧ App.logMatchAt s.log_messages re i = true ∧
      ∀ j, i < j → j < s.log_messages.length → App.logMatchAt s.log_messages re j = false) ∧
    ((s.set_log_search_pattern pat (.ok re)).log_current_match_line = none →
      ∀ j, j < s.log_messages.length → App.logMatchAt s.log_messages re j = false) ∧
    ((∃ j, j < s.log_messages.length ∧ App.logMatchAt s.log_messages re j = true) →
      ∃ i, (s.set_log_search_pattern pat (.ok re)).log_current_match_line = some i) ∧
    (App.set_log_search_pattern logExampleApp "match"
        (.ok matchRegex)).log_current_match_line = some 3 := by
  refine ⟨?_, ?_, ?_, ?_⟩
  · intro i h
    rw [set_log_search_pattern_ok_current] at h
    exact (find?_reverse_range_eq_some_iff _ _ _).mp h
  · intro h
    rw [set_log_search_pattern_ok_current] at h
    exact (find?_reverse_range_eq_none_iff _ _).mp h
  · rintro ⟨j, hj, hpj⟩
    rw [set_log_search_pattern_ok_current]
    cases hf : (List.range s.log_messages.length).reverse.find?
        (App.logMatchAt s.log_messages re) with
    | some i => exact ⟨i, rfl⟩
    | none =>
      have hfalse := (find?_reverse_range_eq_none_iff _ _).mp hf j hj
      rw [hfalse] at hpj
      cases hpj
  · decide

/-! ## C7: next/prev match navigation -/

/-- `log_next_match` with an active pattern, a current match `i` and a
non-empty buffer scans `i+1..len` forward. -/
theorem log_next_match_eq {FG SP : Type} (s : App FG SP) (re : LogRegex) (i : Nat)
    (hre : s.log_search_pattern = some re)
    (hcur : s.log_current_match_line = some i)
    (hlen : s.log_messages.length ≠ 0) :
    s.log_next_match =
      match (List.range' (i + 1) (s.log_messages.length - (i + 1))).find?
          (App.logMatchAt s.log_messages re) with
      | some j => ({ s with log_current_match_line := some j } : App FG SP).scroll_to_log_line j
      | none => s := by
  unfold App.log_next_match
  simp only [hre, hcur, if_neg hlen]

/-- `log_prev_match` with an active pattern, a current match `i` and a
non-empty buffer scans `(0..=i−1).rev()` backward (with `i − 1`
saturating at 0). -/
theorem log_prev_match_eq {FG SP : Type} (s : App FG SP) (re : LogRegex) (i : Nat)
    (hre : s.log_search_pattern = some re)
    (hcur : s.log_current_match_line = some i)
    (hlen : s.log_messages.length ≠ 0) :
    s.log_prev_match =
      match (List.range (i - 1 + 1)).reverse.find? (App.logMatchAt s.log_messages re) with
      | some j => ({ s with log_current_match_line := some j } : App FG SP).scroll_to_log_line j
      | none => s := by
  unfold App.log_prev_match
  simp only [hre, hcur, if_neg hlen]

/-- C7: with an active pattern and current match index `i` (a valid line
index), `log_next_match` moves the current match to the smallest matching
index greater than `i` and is a complete no-op when no later line
matches (no wrap-around); `log_prev_match` moves it to the greatest
matching index less than `i` and leaves the current match index
unchanged when no earlier line matches (no wrap-around). -/
theorem log_match_navigation {FG SP : Type} (s : App FG SP) (re : LogRegex) (i : Nat)
    (hre : s.log_search_pattern = some re)
    (hcur : s.log_current_match_line = some i)
    (hi : i < s.log_messages.length) :
    ((∃ j, i < j ∧ j < s.log_messages.length ∧
        App.logMatchAt s.log_messages re j = true) →
      ∃ j, s.log_next_match.log_current_match_line = some j ∧ i < j ∧
        j < s.log_messages.length ∧ App.logMatchAt s.log_messages re j = true ∧
        ∀ k, i < k → k < j → App.logMatchAt s.log_messages re k = false) ∧
    ((∀ j, i < j → j < s.log_messages.length →
        App.logMatchAt s.log_messages re j = false) →
      s.log_next_match = s) ∧
    ((∃ j, j < i ∧ App.logMatchAt s.log_messages re j = true) →
      ∃ j, s.log_prev_match.log_current_match_line = some j ∧ j < i ∧
        App.logMatchAt s.log_messages re j = true ∧
        ∀ k, j < k → k < i → App.logMatchAt s.log_messages re k = false) ∧
    ((∀ j, j < i → App.logMatchAt s.log_messages re j = false) →
      s.log_prev_match.log_current_match_line = some i) := by
  have hlen : s.log_messages.length ≠ 0 := by omega
  refine ⟨?_, ?_, ?_, ?_⟩
  · rintro ⟨j, hj1, hj2, hj3⟩
    rw [log_next_match_eq s re i hre hcur hlen]
    cases hf : (List.range' (i + 1) (s.log_messages.length - (i + 1))).find?
        (App.logMatchAt s.log_messages re) with
    | none =>
      have hfalse := (find?_range'_eq_none_iff _ _ _).mp hf j (by omega) (by omega)
      rw [hfalse] at hj3
      cases hj3
    | some j' =>
      have hps := (find?_range'_eq_some_iff _ _ _ _).mp hf
      exact ⟨j', ((scroll_to_log_line_preserves _ j').2.2.2).trans rfl, by omega, by omega,
        hps.2.2.1, fun k hk1 hk2 => hps.2.2.2 k (by omega) hk2⟩
  · intro hall
    rw [log_next_match_eq s re i hre hcur hlen]
    have hf : (List.range' (i + 1) (s.log_messages.length - (i + 1))).find?
        (App.logMatchAt s.log_messages re) = none :=
      (find?_range'_eq_none_iff _ _ _).mpr (fun j h1 h2 => hall j (by omega) (by omega))
    rw [hf]
  · rintro ⟨j, hj1, hj2⟩
    rw [log_prev_match_eq s re i hre hcur hlen]
    rw [show i - 1 + 1 = i by omega]
    cases hf : (List.range i).reverse.find? (App.logMatchAt s.log_messages re) with
    | none =>
      have hfalse := (find?_reverse_range_eq_none_iff _ _).mp hf j hj1
      rw [hfalse] at hj2
      cases hj2
    | some j' =>
      have hps := (find?_reverse_range_eq_some_iff _ _ _).mp hf
      exact ⟨j', ((scroll_to_log_line_preserves _ j').2.2.2).trans rfl, hps.1, hps.2.1,
        fun k hk1 hk2 => hps.2.2 k hk1 hk2⟩
  · intro hall
    rw [log_prev_match_eq s re i hre hcur hlen]
    rcases Nat.eq_zero_or_pos i with h0 | hpos
    · subst h0
      by_cases hp0 : App.logMatchAt s.log_messages re 0 = true
      · have hf := (find?_reverse_range_eq_some_iff
          (App.logMatchAt s.log_messages re) 1 0).mpr
            ⟨by omega, hp0, fun j h1 h2 => by omega⟩
        rw [show (0 : Nat) - 1 + 1 = 1 from rfl, hf]
        exact ((scroll_to_log_line_preserves _ 0).2.2.2).trans rfl
      · have hp0' : App.logMatchAt s.log_messages re 0 = false := by
          simpa using hp0
        have hf := (find?_reverse_range_eq_none_iff
          (App.logMatchAt s.log_messages re) 1).mpr
            (fun j hj => by
              have hj0 : j = 0 := by omega
              rw [hj0]
              exact hp0')
        rw [show (0 : Nat) - 1 + 1 = 1 from rfl, hf]
        exact hcur
    · rw [show i - 1 + 1 = i by omega]
      have hf := (find?_reverse_range_eq_none_iff
        (App.logMatchAt s.log_messages re) i).mpr (fun j hj => hall j hj)
      rw [hf]
      exact hcur

/-- The spec's example buffer with the `"match"` pattern active and the
current match at index 1 (`"y match"`). -/
def logNavApp : App Nat Unit :=
  { App.with_flamegraph "profile.txt" 0 with
    log_messages := ["x", "y match", "z", "w match"]
    log_search_pattern := some matchRegex
    log_current_match_line := some 1 }

/-- Witness for C7 at the spec's example buffer with current match 1. -/
theorem log_match_navigation_witness :
    ((∃ j, 1 < j ∧ j < logNavApp.log_messages.length ∧
        App.logMatchAt logNavApp.log_messages matchRegex j = true) →
      ∃ j, logNavApp.log_next_match.log_current_match_line = some j ∧ 1 < j ∧
        j < logNavApp.log_messages.length ∧
        App.logMatchAt logNavApp.log_messages matchRegex j = true ∧
        ∀ k, 1 < k → k < j → App.logMatchAt logNavApp.log_messages matchRegex k = false) ∧
    ((∀ j, 1 < j → j < logNavApp.log_messages.length →
        App.logMatchAt logNavApp.log_messages matchRegex j = false) →
      logNavApp.log_next_match = logNavApp) ∧
    ((∃ j, j < 1 ∧ App.logMatchAt logNavApp.log_messages matchRegex j = true) →
      ∃ j, logNavApp.log_prev_match.log_current_match_line = some j ∧ j < 1 ∧
        App.logMatchAt logNavApp.log_messages matchRegex j = true ∧
        ∀ k, j < k → k < 1 → App.logMatchAt logNavApp.log_messages matchRegex k = false) ∧
    ((∀ j, j < 1 → App.logMatchAt logNavApp.log_messages matchRegex j = false) →
      logNavApp.log_prev_match.log_current_match_line = some 1) :=
  log_match_navigation logNavApp matchRegex 1 rfl rfl (by decide)

/-! ## C10: the scroll offset never exceeds the number of stored lines -/

/-- The log-buffer invariant: the scroll offset is at most the number of
stored log lines. -/
def LogOffsetInv {FG SP : Type} (s : App FG SP) : Prop :=
  s.log_scroll_offset ≤ s.log_messages.length

/-- `scroll_to_log_line` preserves the offset bound. -/
theorem scroll_to_log_line_offset_le {FG SP : Type} (s : App FG SP) (line : Nat)
    (h : LogOffsetInv s) :
    LogOffsetInv (s.scroll_to_log_line line) := by
  by_cases hc : s.log_messages.length - s.log_scroll_offset - s.log_visible_lines ≤ line ∧
      line < s.log_messages.length - s.log_scroll_offset
  · unfold LogOffsetInv
    simp only [App.scroll_to_log_line, if_pos hc]
    exact h
  · unfold LogOffsetInv
    simp only [App.scroll_to_log_line, if_neg hc]
    exact le_trans (min_le_left _ _) (Nat.sub_le _ _)

/-- C10: every log-buffer operation — push, scroll up/down, scroll to
bottom, starting a search (with any compilation outcome), next/prev match
navigation and clearing the search — preserves the invariant that the
scroll offset is at most the number of stored log lines, and the
invariant holds in the initial state of both constructors. -/
theorem log_ops_preserve_offset_inv {FG SP : Type} (s : App FG SP)
    (h : LogOffsetInv s) :
    (∀ msg, LogOffsetInv (s.push_log_message msg)) ∧
    (∀ n, LogOffsetInv (s.log_scroll_up n)) ∧
    (∀ n, LogOffsetInv (s.log_scroll_down n)) ∧
    LogOffsetInv s.log_scroll_to_bottom ∧
    (∀ pat c, LogOffsetInv (s.set_log_search_pattern pat c)) ∧
    LogOffsetInv s.log_next_match ∧
    LogOffsetInv s.log_prev_match ∧
    LogOffsetInv s.clear_log_search ∧
    (∀ (f : String) (fg : FG), LogOffsetInv (App.with_flamegraph f fg : App FG SP)) ∧
    (∀ (pid : Nat) (fg : FG) (ci : Option String),
      LogOffsetInv (App.with_pid pid fg ci : App FG SP)) := by
  have h' : s.log_scroll_offset ≤ s.log_messages.length := h
  refine ⟨?_, ?_, ?_, ?_, ?_, ?_, ?_, ?_, ?_, ?_⟩
  · intro msg
    unfold LogOffsetInv
    simp only [App.push_log_message, List.length_append, List.length_singleton]
    split <;> dsimp only <;>
      simp only [List.length_tail, List.length_append, List.length_singleton] <;>
      (repeat' split) <;> omega
  · intro n
    exact le_trans (min_le_right _ _) (Nat.sub_le _ _)
  · intro n
    exact le_trans (Nat.sub_le _ _) h'
  · exact Nat.zero_le _
  · intro pat c
    cases c with
    | error e => exact h
    | ok re =>
      unfold App.set_log_search_pattern
      cases hf : (List.range s.log_messages.length).reverse.find?
          (App.logMatchAt s.log_messages re) with
      | none =>
        simp only [hf]
        exact h
      | some i =>
        simp only [hf]
        exact scroll_to_log_line_offset_le _ i h
  · unfold App.log_next_match
    cases hre : s.log_search_pattern with
    | none => exact h
    | some re =>
      by_cases hl : s.log_messages.length = 0
      · simp only [if_pos hl]
        exact h
      · simp only [if_neg hl]
        split
        · exact scroll_to_log_line_offset_le _ _ h
        · exact h
  · unfold App.log_prev_match
    cases hre : s.log_search_pattern with
    | none => exact h
    | some re =>
      by_cases hl : s.log_messages.length = 0
      · simp only [if_pos hl]
        exact h
      · simp only [if_neg hl]
        split
        · exact scroll_to_log_line_offset_le _ _ h
        · exact h
  · exact h
  · intro f fg
    exact Nat.zero_le _
  · intro pid fg ci
    exact Nat.zero_le _

/-- Witness for C10 at a concrete state: the file-mode app with a pending
tree (offset 0 ≤ 0 stored lines). -/
theorem log_ops_preserve_offset_inv_witness :
    (∀ msg, LogOffsetInv (sampleApp.push_log_message msg)) ∧
    (∀ n, LogOffsetInv (sampleApp.log_scroll_up n)) ∧
    (∀ n, LogOffsetInv (sampleApp.log_scroll_down n)) ∧
    LogOffsetInv sampleApp.log_scroll_to_bottom ∧
    (∀ pat c, LogOffsetInv (sampleApp.set_log_search_pattern pat c)) ∧
    LogOffsetInv sampleApp.log_next_match ∧
    LogOffsetInv sampleApp.log_prev_match ∧
    LogOffsetInv sampleApp.clear_log_search ∧
    (∀ (f : String) (fg : Nat), LogOffsetInv (App.with_flamegraph f fg : App Nat Unit)) ∧
    (∀ (pid : Nat) (fg : Nat) (ci : Option String),
      LogOffsetInv (App.with_pid pid fg ci : App Nat Unit)) :=
  log_ops_preserve_offset_inv sampleApp (Nat.le_refl 0)
